import Mathlib

/-!
Shallow embedding of `src/metrics.rs` from the rust-prometheus core
(naming, labeling and collector-contract layer), together with theorems
checking the specification's claims about it.

Strings are modelled by Lean `String` (Rust string comparison is
byte-lexicographic on UTF-8, which coincides with codepoint-lexicographic
order, i.e. lexicographic order on `String.data`).  `HashMap<String, String>`
is modelled as an association list with overwrite-on-insert semantics,
observed through `List.lookup`.  Fixed-size arrays `[T; N]` are modelled as
functions `Fin N → α`.
-/

/-- Lexicographic comparison of character lists by codepoint, modelling
Rust's byte-lexicographic `str::cmp` (UTF-8 byte order and codepoint order
agree). -/
def charsCmp : List Char → List Char → Ordering
  | [], [] => .eq
  | [], _ :: _ => .lt
  | _ :: _, [] => .gt
  | a :: as, b :: bs =>
    if a.toNat < b.toNat then .lt
    else if b.toNat < a.toNat then .gt
    else charsCmp as bs

/-- String comparison, modelling Rust's `str::cmp`. -/
def strCmp (s t : String) : Ordering :=
  charsCmp s.data t.data

/-- Model of `proto::LabelPair`: a label name/value pair. -/
structure LabelPair where
  name : String
  value : String
deriving Repr, DecidableEq

/-- `impl Ord for LabelPair` (metrics.rs lines 355-359):
`self.get_name().cmp(other.get_name())`. -/
def LabelPair.cmp (p q : LabelPair) : Ordering :=
  strCmp p.name q.name

/-- `impl PartialOrd for LabelPair` (metrics.rs lines 363-367):
`Some(self.cmp(other))`. -/
def LabelPair.partialCmp (p q : LabelPair) : Option Ordering :=
  some (LabelPair.cmp p q)

/-- `build_fq_name` (metrics.rs lines 376-390), translated clause by clause
from the source: early return on empty `name`, then the three join cases,
else `name` unchanged. -/
def build_fq_name (nspace subsystem name : String) : String :=
  if name = "" then ""
  else if nspace ≠ "" ∧ subsystem ≠ "" then nspace ++ "_" ++ subsystem ++ "_" ++ name
  else if nspace ≠ "" then nspace ++ "_" ++ name
  else if subsystem ≠ "" then subsystem ++ "_" ++ name
  else name

/-- Joining a list of strings with `"_"`, used to state the specification's
description of `build_fq_name` ("components joined by `_`"). -/
def joinUnderscore : List String → String
  | [] => ""
  | [s] => s
  | s :: rest => s ++ "_" ++ joinUnderscore rest

/-- The specification's characterization of `build_fq_name`, written from the
spec's words: empty `name` gives the empty string; otherwise the non-empty
components are joined by `"_"` in namespace-subsystem-name order with empty
components omitted. -/
def fqNameSpec (nspace subsystem name : String) : String :=
  if name = "" then ""
  else joinUnderscore (([nspace, subsystem].filter (fun c => c ≠ "")) ++ [name])

/-- Model of `HashMap::insert` on an association list: overwrite the value at
an existing key, otherwise append the new binding. -/
def mapInsert (m : List (String × String)) (k v : String) : List (String × String) :=
  match m with
  | [] => [(k, v)]
  | (k', v') :: rest => if k' = k then (k, v) :: rest else (k', v') :: mapInsert rest k v

/-- Modelled from the spec: the descriptor produced by `Desc::new` in
`desc.rs`, which is not among the sources.  Per the spec (sections 4.3
and the glossary) a descriptor is immutable metadata holding the
fully-qualified name, the help text, the ordered variable-label names and
the constant-label mapping. -/
structure Desc where
  fq_name : String
  help : String
  variable_labels : List String
  const_labels : List (String × String)
deriving Repr, DecidableEq

/-- Model of `Opts<L>` (metrics.rs lines 210-253).  The `variable_labels`
field holds the owned materialization `L::Owned`, modelled as a list of
strings. -/
structure Opts where
  nspace : String
  subsystem : String
  name : String
  help : String
  const_labels : List (String × String)
  variable_labels : List String
deriving Repr, DecidableEq

/-- `Opts::new_with_label` (metrics.rs lines 278-291): empty namespace and
subsystem, empty const labels, variable labels taken from the supplied
label set's owned view. -/
def Opts.new_with_label (name help : String) (variable_labels : List String) : Opts :=
  { nspace := ""
    subsystem := ""
    name := name
    help := help
    const_labels := []
    variable_labels := variable_labels }

/-- `Opts::new` (metrics.rs lines 257-263): `Opts::new_with_label(name, help, [])`. -/
def Opts.new (name help : String) : Opts :=
  Opts.new_with_label name help []

/-- `Opts::const_labels` builder method (metrics.rs lines 306-309): replaces
the whole const-label mapping.  Named `with_const_labels` here because the
field accessor already carries the source name. -/
def Opts.with_const_labels (o : Opts) (const_labels : List (String × String)) : Opts :=
  { o with const_labels := const_labels }

/-- `Opts::const_label` builder method (metrics.rs lines 312-319):
`self.const_labels.insert(name.into(), value.into())`. -/
def Opts.const_label (o : Opts) (name value : String) : Opts :=
  { o with const_labels := mapInsert o.const_labels name value }

/-- `Opts::fq_name` (metrics.rs lines 328-330). -/
def Opts.fq_name (o : Opts) : String :=
  build_fq_name o.nspace o.subsystem o.name

/-- `impl Describer for Opts` (metrics.rs lines 344-353): calls `Desc::new`
with the fq-name, a clone of the help text, the variable labels as a plain
sequence, and a clone of the const-label mapping.  `Desc::new` lives in
`desc.rs`, which is not part of the sources; it is passed in as the
parameter `descNew`. -/
def Opts.describe (descNew : String → String → List String → List (String × String) → Except String Desc)
    (o : Opts) : Except String Desc :=
  descNew o.fq_name o.help o.variable_labels o.const_labels

/-- Modelled from the spec: the registry collaborator (`super::Registry`,
not among the sources).  Per spec section 6, its registration entry point is
`try_register(collector) -> Result<()>`; the registry owns collision
detection, so it is modelled as an arbitrary function from the collector
value to a `Result`.  Errors are modelled as strings. -/
structure Registry (α : Type) where
  try_register : α → Except String Unit

/-- `Collector::try_register` (metrics.rs lines 122-127):
`registry.try_register(Box::new(self.clone())).map(|_| self)`.  With value
semantics the boxed clone is the collector value itself. -/
def Collector.try_register (c : α) (r : Registry α) : Except String α :=
  (r.try_register c).map (fun _ => c)

/-- `Collector::register` (metrics.rs lines 131-139): the same registration
followed by `.unwrap()`.  The panic of `unwrap` on an error is modelled as
`none`; a normal return is `some`. -/
def Collector.register (c : α) (r : Registry α) : Option α :=
  ((r.try_register c).map (fun _ => c)).toOption

/-- A registry whose registration always succeeds, for concrete evaluation. -/
def registryOk : Registry Nat :=
  ⟨fun _ => .ok ()⟩

/-- A registry whose registration always fails with a duplicate-descriptor
error, for concrete evaluation. -/
def registryDup : Registry Nat :=
  ⟨fun _ => .error "duplicate descriptor"⟩

/-- `impl Labels for [T; 0]` `to_owned` (metrics.rs lines 47-49). -/
def labels0ToOwned (_asRef : α → String) (_xs : Fin 0 → α) : List String :=
  []

/-- `impl Labels for [T; 1]` `to_owned` (metrics.rs lines 60-62). -/
def labels1ToOwned (asRef : α → String) (xs : Fin 1 → α) : List String :=
  [asRef (xs 0)]

/-- `impl Labels for [T; 2]` `to_owned` (metrics.rs lines 73-75). -/
def labels2ToOwned (asRef : α → String) (xs : Fin 2 → α) : List String :=
  [asRef (xs 0), asRef (xs 1)]

/-- `impl Labels for [T; 3]` `to_owned` (metrics.rs lines 86-92). -/
def labels3ToOwned (asRef : α → String) (xs : Fin 3 → α) : List String :=
  [asRef (xs 0), asRef (xs 1), asRef (xs 2)]

/-- `impl Labels for [T; 4]` `to_owned` (metrics.rs lines 103-110). -/
def labels4ToOwned (asRef : α → String) (xs : Fin 4 → α) : List String :=
  [asRef (xs 0), asRef (xs 1), asRef (xs 2), asRef (xs 3)]

/-! ## Helper lemmas -/

theorem charsCmp_eq_iff : ∀ as bs : List Char, charsCmp as bs = .eq ↔ as = bs
  | [], [] => by simp [charsCmp]
  | [], _ :: _ => by simp [charsCmp]
  | _ :: _, [] => by simp [charsCmp]
  | a :: as, b :: bs => by
    by_cases h1 : a.toNat < b.toNat
    · simp only [charsCmp, if_pos h1]
      constructor
      · intro h; exact absurd h (by decide)
      · intro h
        obtain ⟨rfl, -⟩ := List.cons.inj h
        exact absurd h1 (Nat.lt_irrefl _)
    · by_cases h2 : b.toNat < a.toNat
      · simp only [charsCmp, if_neg h1, if_pos h2]
        constructor
        · intro h; exact absurd h (by decide)
        · intro h
          obtain ⟨rfl, -⟩ := List.cons.inj h
          exact absurd h2 (Nat.lt_irrefl _)
      · have hab : a = b := by
          have hn : a.toNat = b.toNat := by omega
          exact Char.eq_of_val_eq (UInt32.ext hn)
        subst hab
        simp only [charsCmp, if_neg h1, if_neg h2]
        rw [charsCmp_eq_iff as bs]
        simp

theorem strCmp_eq_iff (s t : String) : strCmp s t = .eq ↔ s = t := by
  constructor
  · intro h
    exact String.ext ((charsCmp_eq_iff _ _).mp h)
  · intro h
    subst h
    exact (charsCmp_eq_iff _ _).mpr rfl

theorem string_append_assoc (a b c : String) : a ++ b ++ c = a ++ (b ++ c) := by
  apply String.ext
  simp

theorem lookup_mapInsert_self (m : List (String × String)) (k v : String) :
    List.lookup k (mapInsert m k v) = some v := by
  induction m with
  | nil => simp [mapInsert, List.lookup]
  | cons p rest ih =>
    obtain ⟨k', v'⟩ := p
    by_cases h : k' = k
    · subst h
      simp [mapInsert, List.lookup]
    · have hb : (k == k') = false := beq_eq_false_iff_ne.mpr (Ne.symm h)
      simp [mapInsert, h, List.lookup, hb, ih]

theorem lookup_mapInsert_ne (m : List (String × String)) (k v k' : String)
    (hne : k' ≠ k) : List.lookup k' (mapInsert m k v) = List.lookup k' m := by
  induction m with
  | nil => simp [mapInsert, List.lookup, beq_eq_false_iff_ne.mpr hne]
  | cons p rest ih =>
    obtain ⟨k₀, v₀⟩ := p
    by_cases h : k₀ = k
    · subst h
      simp [mapInsert, List.lookup, beq_eq_false_iff_ne.mpr hne]
    · simp [mapInsert, h, List.lookup, ih]

/-! ## Claim theorems -/

/-- C1: for every triple (namespace, subsystem, name), `build_fq_name`
returns the empty string when `name` is empty, and otherwise returns the
non-empty components joined by `"_"` in namespace-subsystem-name order with
empty components omitted, as expressed by `fqNameSpec`. -/
theorem build_fq_name_matches_spec (nspace subsystem name : String) :
    build_fq_name nspace subsystem name = fqNameSpec nspace subsystem name := by
  by_cases hn : name = ""
  · simp [build_fq_name, fqNameSpec, hn]
  · by_cases hns : nspace = "" <;> by_cases hss : subsystem = "" <;>
      simp [build_fq_name, fqNameSpec, hn, hns, hss, joinUnderscore, string_append_assoc]

/-- C9: emptiness of a name component is literal string emptiness, with no
whitespace trimming: `build_fq_name " " "" ""` is empty only because `name`
is empty, any non-empty (e.g. whitespace-only) namespace participates in the
join when `name` is non-empty, and `build_fq_name " " "" "c" = " _c"`. -/
theorem build_fq_name_no_whitespace_trim :
    build_fq_name " " "" "" = "" ∧
    (∀ nspace name : String, nspace ≠ "" → name ≠ "" →
      build_fq_name nspace "" name = nspace ++ "_" ++ name) ∧
    build_fq_name " " "" "c" = " _c" := by
  refine ⟨by decide, ?_, by decide⟩
  intro nspace name hns hn
  simp [build_fq_name, hn, hns]

/-- Witness for C9 at the concrete input `(" ", "", "c")`. -/
theorem build_fq_name_no_whitespace_trim_witness :
    (" " : String) ≠ "" ∧ ("c" : String) ≠ "" ∧
    build_fq_name " " "" "c" = " " ++ "_" ++ "c" :=
  ⟨by decide, by decide,
   build_fq_name_no_whitespace_trim.2.1 " " "c" (by decide) (by decide)⟩

/-- C2: `LabelPair.cmp` compares the name fields alone by byte/lexicographic
string comparison; values never influence the result, and the result is
`.eq` exactly when the two names are equal. -/
theorem labelPair_cmp_by_name_only (p q : LabelPair) :
    LabelPair.cmp p q = strCmp p.name q.name ∧
    (∀ v v' : String, LabelPair.cmp ⟨p.name, v⟩ ⟨q.name, v'⟩ = LabelPair.cmp p q) ∧
    (LabelPair.cmp p q = .eq ↔ p.name = q.name) :=
  ⟨rfl, fun _ _ => rfl, strCmp_eq_iff _ _⟩

/-- C10: `LabelPair.partialCmp` always returns `some` of `LabelPair.cmp` and
is never `none`: the partial comparison agrees with the total one on all
inputs. -/
theorem labelPair_partialCmp_eq_some_cmp (p q : LabelPair) :
    LabelPair.partialCmp p q = some (LabelPair.cmp p q) ∧
    LabelPair.partialCmp p q ≠ none :=
  ⟨rfl, by simp [LabelPair.partialCmp]⟩

/-- C3: `Collector.try_register` returns the original collector on success
and propagates the registry's error as a recoverable error, while
`Collector.register` performs the same registration, returns the same
collector on success, and turns any registration error into a panic
(modelled as `none`). -/
theorem collector_register_spec {α : Type} (r : Registry α) (c : α) :
    (r.try_register c = .ok () →
      Collector.try_register c r = .ok c ∧ Collector.register c r = some c) ∧
    (∀ e, r.try_register c = .error e →
      Collector.try_register c r = .error e ∧ Collector.register c r = none) := by
  constructor
  · intro h
    simp [Collector.try_register, Collector.register, h, Except.map, Except.toOption]
  · intro e h
    simp [Collector.try_register, Collector.register, h, Except.map, Except.toOption]

/-- Witness for C3 on a registry that accepts and one that rejects. -/
theorem collector_register_spec_witness :
    Collector.try_register 7 registryOk = .ok 7 ∧
    Collector.register 7 registryDup = none :=
  ⟨((collector_register_spec registryOk 7).1 rfl).1,
   ((collector_register_spec registryDup 7).2 "duplicate descriptor" rfl).2⟩

/-- C4: for every cardinality N in 0..4, the owned materialization of a
label set of N names has exactly N entries, in the order supplied, each
equal (as a string) to the corresponding original. -/
theorem labels_toOwned_preserves {α : Type} (asRef : α → String) :
    (∀ xs : Fin 0 → α, labels0ToOwned asRef xs = List.ofFn (fun i => asRef (xs i)) ∧
      (labels0ToOwned asRef xs).length = 0) ∧
    (∀ xs : Fin 1 → α, labels1ToOwned asRef xs = List.ofFn (fun i => asRef (xs i)) ∧
      (labels1ToOwned asRef xs).length = 1) ∧
    (∀ xs : Fin 2 → α, labels2ToOwned asRef xs = List.ofFn (fun i => asRef (xs i)) ∧
      (labels2ToOwned asRef xs).length = 2) ∧
    (∀ xs : Fin 3 → α, labels3ToOwned asRef xs = List.ofFn (fun i => asRef (xs i)) ∧
      (labels3ToOwned asRef xs).length = 3) ∧
    (∀ xs : Fin 4 → α, labels4ToOwned asRef xs = List.ofFn (fun i => asRef (xs i)) ∧
      (labels4ToOwned asRef xs).length = 4) := by
  refine ⟨?_, ?_, ?_, ?_, ?_⟩ <;> intro xs <;>
    simp [labels0ToOwned, labels1ToOwned, labels2ToOwned, labels3ToOwned,
      labels4ToOwned, List.ofFn_succ, List.ofFn_zero]
  rfl

/-- C5: `Opts.describe` builds the descriptor from exactly the
fully-qualified name (as computed by `build_fq_name` on the record's
fields), the help text, the variable-label names in declared order, and
the constant-label mapping, for any descriptor constructor. -/
theorem opts_describe_uses_four_inputs
    (descNew : String → String → List String → List (String × String) → Except String Desc)
    (o : Opts) :
    Opts.describe descNew o =
      descNew (build_fq_name o.nspace o.subsystem o.name) o.help
        o.variable_labels o.const_labels :=
  rfl

/-- C6: `Opts.fq_name` is a pure function of the record's current namespace,
subsystem and name fields, equal to `build_fq_name` applied to them; being a
function, repeated calls on an unmodified record return the same string. -/
theorem opts_fq_name_eq_build (o : Opts) :
    Opts.fq_name o = build_fq_name o.nspace o.subsystem o.name :=
  rfl

/-- C7: `Opts.new name help` has empty namespace and subsystem, an empty
constant-label mapping, zero-cardinality variable labels, and the supplied
name and help. -/
theorem opts_new_defaults (n h : String) :
    (Opts.new n h).nspace = "" ∧ (Opts.new n h).subsystem = "" ∧
    (Opts.new n h).const_labels = [] ∧ (Opts.new n h).variable_labels = [] ∧
    (Opts.new n h).name = n ∧ (Opts.new n h).help = h :=
  ⟨rfl, rfl, rfl, rfl, rfl, rfl⟩

/-- C8: `Opts.const_label` maps the one given label name to the given value
(overwriting), leaves every other constant-label entry unchanged, and leaves
every other field of the record unchanged; `Opts.with_const_labels` replaces
the whole constant-label mapping, likewise leaving all other fields
unchanged. -/
theorem opts_const_label_ops :
    (∀ (o : Opts) (k v : String),
      List.lookup k (Opts.const_label o k v).const_labels = some v ∧
      (∀ k' : String, k' ≠ k →
        List.lookup k' (Opts.const_label o k v).const_labels =
          List.lookup k' o.const_labels) ∧
      (Opts.const_label o k v).nspace = o.nspace ∧
      (Opts.const_label o k v).subsystem = o.subsystem ∧
      (Opts.const_label o k v).name = o.name ∧
      (Opts.const_label o k v).help = o.help ∧
      (Opts.const_label o k v).variable_labels = o.variable_labels) ∧
    (∀ (o : Opts) (m : List (String × String)),
      (Opts.with_const_labels o m).const_labels = m ∧
      (Opts.with_const_labels o m).nspace = o.nspace ∧
      (Opts.with_const_labels o m).subsystem = o.subsystem ∧
      (Opts.with_const_labels o m).name = o.name ∧
      (Opts.with_const_labels o m).help = o.help ∧
      (Opts.with_const_labels o m).variable_labels = o.variable_labels) := by
  constructor
  · intro o k v
    exact ⟨lookup_mapInsert_self _ _ _,
      fun k' h => lookup_mapInsert_ne _ _ _ _ h, rfl, rfl, rfl, rfl, rfl⟩
  · intro o m
    exact ⟨rfl, rfl, rfl, rfl, rfl, rfl⟩

/-- Witness for C8: inserting label "a" into a record that already holds
label "b" maps "a" to the new value and leaves the lookup of "b" unchanged. -/
theorem opts_const_label_ops_witness :
    ("b" : String) ≠ "a" ∧
    List.lookup "a"
      (((Opts.new "n" "h").const_label "b" "2").const_label "a" "1").const_labels = some "1" ∧
    List.lookup "b"
      (((Opts.new "n" "h").const_label "b" "2").const_label "a" "1").const_labels =
      List.lookup "b" ((Opts.new "n" "h").const_label "b" "2").const_labels :=
  ⟨by decide,
   (opts_const_label_ops.1 ((Opts.new "n" "h").const_label "b" "2") "a" "1").1,
   (opts_const_label_ops.1 ((Opts.new "n" "h").const_label "b" "2") "a" "1").2.1 "b" (by decide)⟩
